import Mathlib

/-!
Verification of the phrase-matching / bias-scoring engine of the
SocialBiasCheckV2 repository.

The Python sources `backend/app/main.py` (FastAPI server) and
`backend/app/server.py` (plain-HTTP duplicate) are shallowly embedded below.
Python strings become Lean `String`s (operated on through `List Char`),
Python floats become `ℚ` (all constants appearing in the code — 2.0, 1.0,
0.75, 0.6, 0.85, 1.2, 0.3, 0.5 — are exactly representable and the programs
only add, multiply and divide values derived from small integer counts, so
rational arithmetic agrees with IEEE double arithmetic on every comparison
the code performs at realistic input sizes), Python dictionaries with string
keys become association lists `List (String × _)` in insertion order, and
code that can raise (`ZeroDivisionError`, `IndexError`, HTTP error
responses) returns `Except`.
-/

instance {ε α : Type} [DecidableEq ε] [DecidableEq α] :
    DecidableEq (Except ε α) := fun x y =>
  match x, y with
  | .error a, .error b =>
    if h : a = b then isTrue (congrArg Except.error h)
    else isFalse (fun he => h (Except.error.inj he))
  | .error _, .ok _ => isFalse (fun he => Except.noConfusion he)
  | .ok _, .error _ => isFalse (fun he => Except.noConfusion he)
  | .ok a, .ok b =>
    if h : a = b then isTrue (congrArg Except.ok h)
    else isFalse (fun he => h (Except.ok.inj he))

/-! ## Python string primitives -/

/-- `str.lower()` (character-wise lowering, as Python does for ASCII text). -/
def pyLower (s : String) : String :=
  String.mk (s.toList.map Char.toLower)

/-- Helper for `pySplit`: accumulates the current word (reversed) while
scanning the character list. -/
def wordsAux (cur : List Char) : List Char → List String
  | [] => if cur = [] then [] else [String.mk cur.reverse]
  | c :: cs =>
    if c.isWhitespace then
      if cur = [] then wordsAux [] cs
      else String.mk cur.reverse :: wordsAux [] cs
    else wordsAux (c :: cur) cs

/-- `str.split()` with no argument: split on runs of whitespace, dropping
empty pieces. -/
def pySplit (s : String) : List String :=
  wordsAux [] s.toList

/-- Substring test on character lists: `sub` occurs contiguously in `hay`. -/
def listContainsSub (hay sub : List Char) : Bool :=
  (List.range (hay.length + 1)).any (fun i => sub.isPrefixOf (hay.drop i))

/-- Python's `sub in hay` on strings (contiguous substring; the empty string
is a substring of everything). -/
def pyContains (hay sub : String) : Bool :=
  listContainsSub hay.toList sub.toList

/-- Python's `str.rstrip(chars)`: remove *all* trailing characters that
belong to `cs` (so `"freed".rstrip("ed") = "fr"`). -/
def pyRstrip (s : String) (cs : List Char) : String :=
  String.mk ((s.toList.reverse.dropWhile (fun c => cs.contains c)).reverse)

/-- Python's `str.strip()` with no argument: drop whitespace from both
ends. -/
def pyStrip (s : String) : String :=
  String.mk (((s.toList.dropWhile Char.isWhitespace).reverse.dropWhile
    Char.isWhitespace).reverse)

/-- Python's slice `w[i:j]` on a string (character indices). -/
def pySlice (w : String) (i j : Nat) : String :=
  String.mk ((w.toList.drop i).take (j - i))

/-! ## `main.py`: find_phrase_matches (lines 46–119) -/

/-- The set comprehension from `main.py` lines 68–70:
`{w[i:j] for w in text_words for i in range(len(w)) for j in range(i + 3, len(w) + 1)}`
— every contiguous substring of length ≥ 3 of every text token.  Modelled as
the list of its elements (only membership is ever used). -/
def textSubstrings (textWords : List String) : List String :=
  textWords.flatMap (fun w =>
    (List.range w.length).flatMap (fun i =>
      ((List.range (w.length + 1)).filter (fun j => i + 3 ≤ j)).map
        (fun j => pySlice w i j)))

/-- The `word_variations` list from `main.py` lines 97–104 (in source
order): `rstrip('s')`, `rstrip('ed')`, `rstrip('ing')`, append `s`, `ed`,
`ing`. -/
def wordVariations (pw : String) : List String :=
  [ pyRstrip pw ['s'],
    pyRstrip pw ['e', 'd'],
    pyRstrip pw ['i', 'n', 'g'],
    pw ++ "s",
    pw ++ "ed",
    pw ++ "ing" ]

/-- One iteration of the `for phrase_word in phrase_words` loop body of
`main.py` (lines 72–110), as the boolean "was `matched_words` incremented
for this phrase word".  The three stages of the source are kept:
1. exact membership in the text word set;
2. the containment loop over `text_words` (whose condition also consults
   the `text_substrings` set, lines 84–87);
3. the `word_variations` loop (lines 106–110), which checks each variation
   against both the word set and the substring set. -/
def wordCheck (textWords : List String) (pw : String) : Bool :=
  if textWords.contains pw then true
  else if textWords.any (fun tw =>
      pyContains tw pw ||
      pyContains pw tw ||
      (textSubstrings textWords).contains pw ||
      (textSubstrings textWords).any (fun sub =>
        decide (3 ≤ sub.length) && pyContains pw sub)) then true
  else (wordVariations pw).any (fun v =>
    textWords.contains v || (textSubstrings textWords).contains v)

/-- Processing of a single candidate phrase inside `find_phrase_matches`
(`main.py` lines 52–117): `some p` means the (lowercased) phrase is
appended to `matches`, `none` means it is skipped, `Except.error ()` is the
`ZeroDivisionError` raised by `matched_words / len(phrase_words)` when the
phrase has no words and the verbatim check failed.  The source's
`match_ratio >= 0.6` is written as the equivalent integer comparison
`3 * len ≤ 5 * matched` so that the matcher stays kernel-computable; the
lemma `matchThreshold_iff` below proves it equal to the rational
inequality `0.6 ≤ matched / len`. -/
def phraseStep (textLower : String) (textWords : List String)
    (phrase : String) : Except Unit (Option String) :=
  let p := pyLower phrase
  if pyContains textLower p then Except.ok (some p)
  else
    let phrase_words := pySplit p
    let matched_words := phrase_words.foldl
      (fun acc pw => if wordCheck textWords pw then acc + 1 else acc) 0
    if phrase_words.length = 0 then Except.error ()
    else
      Except.ok
        (if 3 * phrase_words.length ≤ 5 * matched_words then some p else none)

/-- The `for phrase in phrases` loop of `find_phrase_matches`, threading
the possible `ZeroDivisionError` (an exception at phrase `k` aborts the
whole call, as in Python). -/
def matchLoop (textLower : String) (textWords : List String) :
    List String → Except Unit (List String)
  | [] => Except.ok []
  | p :: ps =>
    match phraseStep textLower textWords p with
    | Except.error e => Except.error e
    | Except.ok r =>
      match matchLoop textLower textWords ps with
      | Except.error e => Except.error e
      | Except.ok rest =>
        Except.ok (match r with
          | some m => m :: rest
          | none => rest)

/-- `find_phrase_matches` from `main.py` lines 46–119. -/
def find_phrase_matches (text : String) (phrases : List String) :
    Except Unit (List String) :=
  let t := pyLower text
  matchLoop t (pySplit t) phrases

/-! ## `main.py`: calculate_bias_scores (lines 121–183) -/

/-- The shape of the `bias_keywords.json` dataset as the two servers
consume it: `BIAS_KEYWORDS["extreme_right"]["keywords"]`,
`BIAS_KEYWORDS["left_wing"]["economic"]`, …  The dataset file itself is
not part of the analysed sources, so the keyword lists are a parameter of
the embedding. -/
structure BiasKeywords where
  extreme_right : List String
  extreme_left : List String
  left_wing_economic : List String
  left_wing_social : List String
  right_wing_economic : List String
  right_wing_social : List String
  neutral_terms : List String
deriving DecidableEq

/-- The five-entry `scores` dictionary of `calculate_bias_scores`, fields
in the dictionary's insertion order (`main.py` lines 124–130). -/
structure Scores where
  left_wing : ℚ
  right_wing : ℚ
  extreme_left : ℚ
  extreme_right : ℚ
  neutral : ℚ
deriving DecidableEq

/-- `detected_phrases[k].extend(vs)` on a `defaultdict(list)` represented
as an insertion-ordered association list: extend the existing entry in
place, or create the key at the end. -/
def extendEntry (m : List (String × List String)) (k : String)
    (vs : List String) : List (String × List String) :=
  match m with
  | [] => [(k, vs)]
  | (k0, v0) :: rest =>
    if k0 = k then (k0, v0 ++ vs) :: rest
    else (k0, v0) :: extendEntry rest k vs

/-- Dictionary lookup on the association list, defaulting to `[]` for a
missing key (matching `defaultdict(list)` reads). -/
def lookupD (m : List (String × List String)) (c : String) : List String :=
  match m with
  | [] => []
  | (k, v) :: rest => if k = c then v else lookupD rest c

/-- The raw (pre-normalization) `scores` dictionary of
`calculate_bias_scores` (`main.py` lines 124–169), as a function of the
seven match lists.  Each key starts at 0 and is incremented by
`len(matches) * weight` only under `if matches:`, so each field is that
conditional sum. -/
def rawScores (mER mEL mLE mLS mRE mRS mN : List String) : Scores where
  left_wing :=
    (if mLE = [] then 0 else (mLE.length : ℚ) * 1) +
    (if mLS = [] then 0 else (mLS.length : ℚ) * 1)
  right_wing :=
    (if mRE = [] then 0 else (mRE.length : ℚ) * 1) +
    (if mRS = [] then 0 else (mRS.length : ℚ) * 1)
  extreme_left := if mEL = [] then 0 else (mEL.length : ℚ) * 2
  extreme_right := if mER = [] then 0 else (mER.length : ℚ) * 2
  neutral := if mN = [] then 0 else (mN.length : ℚ) * 0.75

/-- The `detected_phrases` dictionary of `calculate_bias_scores`, built by
the seven conditional `extend` calls in source order (extreme_right,
extreme_left, left_wing economic, left_wing social, right_wing economic,
right_wing social, neutral). -/
def collectPhrases (mER mEL mLE mLS mRE mRS mN : List String) :
    List (String × List String) :=
  let d0 : List (String × List String) := []
  let d1 := if mER = [] then d0 else extendEntry d0 "extreme_right" mER
  let d2 := if mEL = [] then d1 else extendEntry d1 "extreme_left" mEL
  let d3 := if mLE = [] then d2 else extendEntry d2 "left_wing" mLE
  let d4 := if mLS = [] then d3 else extendEntry d3 "left_wing" mLS
  let d5 := if mRE = [] then d4 else extendEntry d4 "right_wing" mRE
  let d6 := if mRS = [] then d5 else extendEntry d5 "right_wing" mRS
  if mN = [] then d6 else extendEntry d6 "neutral" mN

/-- The scoring tail of `calculate_bias_scores` (`main.py` lines 124–183):
accumulate the weighted raw scores and detected phrases, then normalize by
the total (`sum(scores.values())`, dictionary order) when it is
positive. -/
def scoreAndCollect (mER mEL mLE mLS mRE mRS mN : List String) :
    Scores × List (String × List String) :=
  let s := rawScores mER mEL mLE mLS mRE mRS mN
  let total_score :=
    s.left_wing + s.right_wing + s.extreme_left + s.extreme_right + s.neutral
  let final : Scores :=
    if 0 < total_score then
      { left_wing := s.left_wing / total_score
        right_wing := s.right_wing / total_score
        extreme_left := s.extreme_left / total_score
        extreme_right := s.extreme_right / total_score
        neutral := s.neutral / total_score }
    else s
  (final, collectPhrases mER mEL mLE mLS mRE mRS mN)

/-- `calculate_bias_scores` from `main.py` lines 121–183, with the seven
`find_phrase_matches` calls in source order; an exception in any call
propagates (Python raises out of the function). -/
def calculate_bias_scores (kw : BiasKeywords) (text : String) :
    Except Unit (Scores × List (String × List String)) :=
  match find_phrase_matches text kw.extreme_right with
  | Except.error e => Except.error e
  | Except.ok mER =>
  match find_phrase_matches text kw.extreme_left with
  | Except.error e => Except.error e
  | Except.ok mEL =>
  match find_phrase_matches text kw.left_wing_economic with
  | Except.error e => Except.error e
  | Except.ok mLE =>
  match find_phrase_matches text kw.left_wing_social with
  | Except.error e => Except.error e
  | Except.ok mLS =>
  match find_phrase_matches text kw.right_wing_economic with
  | Except.error e => Except.error e
  | Except.ok mRE =>
  match find_phrase_matches text kw.right_wing_social with
  | Except.error e => Except.error e
  | Except.ok mRS =>
  match find_phrase_matches text kw.neutral_terms with
  | Except.error e => Except.error e
  | Except.ok mN =>
    Except.ok (scoreAndCollect mER mEL mLE mLS mRE mRS mN)

/-! ## `main.py`: determine_overall_bias (lines 185–213) -/

/-- The five top-level category names in the `scores` dictionary's
iteration order. -/
def categoryList : List String :=
  ["left_wing", "right_wing", "extreme_left", "extreme_right", "neutral"]

/-- `scores[c]` for the five category names. -/
def scoreOf (s : Scores) (c : String) : ℚ :=
  if c = "left_wing" then s.left_wing
  else if c = "right_wing" then s.right_wing
  else if c = "extreme_left" then s.extreme_left
  else if c = "extreme_right" then s.extreme_right
  else s.neutral

/-- `max(scores.values())`. -/
def maxScore (s : Scores) : ℚ :=
  max (max (max (max s.left_wing s.right_wing) s.extreme_left)
    s.extreme_right) s.neutral

/-- The `dominant_categories` list of `determine_overall_bias`
(`main.py` line 194): categories whose score is at least
`max_score * 0.85`, in dictionary order. -/
def dominantCats (s : Scores) : List String :=
  categoryList.filter (fun c => decide (maxScore s * 0.85 ≤ scoreOf s c))

/-- Python's `max(items, key=lambda x: x[1])` on a list of
(category, score) pairs: the first pair attaining the maximal score
(`max` keeps the earlier element unless a later one is strictly
greater). -/
def pyMaxByVal : List (String × ℚ) → Option (String × ℚ)
  | [] => none
  | x :: xs => some (xs.foldl (fun acc y => if acc.2 < y.2 then y else acc) x)

/-- `determine_overall_bias` from `main.py` lines 185–213.
`Except.error ()` is the `IndexError` raised by `dominant_categories[0]`
when the dominant list is empty (reachable only for score dictionaries
with a negative maximum). -/
def determine_overall_bias (s : Scores) : Except Unit (String × ℚ) :=
  let max_score := maxScore s
  if max_score = 0 then Except.ok ("neutral", 0)
  else
    let dominant_categories := dominantCats s
    let extreme_categories : List String := ["extreme_left", "extreme_right"]
    let tail : Except Unit (String × ℚ) :=
      if 1 < dominant_categories.length then Except.ok ("mixed", max_score)
      else
        match dominant_categories with
        | [] => Except.error ()
        | c :: _ => Except.ok (c, max_score)
    if dominant_categories.any (fun c => extreme_categories.contains c) then
      let extreme_scores :=
        (extreme_categories.filter (fun c => dominant_categories.contains c)).map
          (fun c => (c, scoreOf s c))
      match pyMaxByVal extreme_scores with
      | some cm => Except.ok (cm.1, scoreOf s cm.1)
      | none => tail
    else tail

/-! ## `main.py`: the /analyze handler (lines 215–242) -/

/-- The `BiasAnalysis` response model of `main.py` lines 34–39. -/
structure BiasAnalysis where
  text : String
  bias_scores : Scores
  overall_bias : String
  confidence : ℚ
  detected_phrases : List (String × List String)
deriving DecidableEq

/-- The `/analyze` handler `analyze_text` (`main.py` lines 215–242):
empty-after-strip text is rejected with HTTP 400 before any scoring; any
exception escaping the scoring pipeline is converted to HTTP 500. -/
def analyze_text (kw : BiasKeywords) (input_text : String) :
    Except (Nat × String) BiasAnalysis :=
  if pyStrip input_text = "" then
    Except.error (400, "Text cannot be empty")
  else
    match calculate_bias_scores kw input_text with
    | Except.error _ => Except.error (500, "Analysis failed")
    | Except.ok (bias_scores, detected_phrases) =>
      match determine_overall_bias bias_scores with
      | Except.error _ => Except.error (500, "Analysis failed")
      | Except.ok (overall_bias, confidence) =>
        Except.ok
          { text := input_text
            bias_scores := bias_scores
            overall_bias := overall_bias
            confidence := confidence
            detected_phrases := detected_phrases }

/-! ## `server.py`: the duplicate pipeline (lines 32–149) -/

/-- First-occurrence deduplication, modelling construction of a Python
`set` from a list where only cardinality and membership are consumed. -/
def pyToSet (l : List String) : List String :=
  l.foldl (fun acc x => if acc.contains x then acc else acc ++ [x]) []

namespace ServerPy

/-- Per-phrase verdict of `server.py`'s `find_phrase_matches`
(lines 38–61): verbatim substring, else single-word containment in some
input word, else unique-common-word count against the
`max(1, len(phrase_words) * 0.3)` threshold. -/
def phraseMatched (processed_text : String) (input_words : List String)
    (phrase : String) : Bool :=
  let phrase_lower := pyLower phrase
  if pyContains processed_text phrase_lower then true
  else
    let phrase_words := pyToSet (pySplit phrase_lower)
    if phrase_words.length = 1 then
      input_words.any (fun iw => pyContains iw phrase_words.headI)
    else
      let common_words := phrase_words.filter (fun w => input_words.contains w)
      decide (max (1 : ℚ) ((phrase_words.length : ℚ) * 0.3)
        ≤ (common_words.length : ℚ))

/-- `find_phrase_matches` from `server.py` lines 32–63.  The source
iterates over a Python set of phrases; the embedding takes the phrases as
a list (one iteration order of that set). -/
def find_phrase_matches (text : String) (phrases : List String) :
    List String :=
  let processed_text := pyLower text
  let input_words := pySplit processed_text
  phrases.filter (fun p => phraseMatched processed_text input_words p)

/-- `calculate_bias_scores` from `server.py` lines 65–110: weights 2.0 /
1.2 / 0.3, then a flat `+0.5` baseline on every category with a positive
raw score, then the same positive-total normalization as `main.py`.  The
phrase lists are lowercased up front, as `PROCESSED_KEYWORDS` does at load
time (lines 18–30). -/
def calculate_bias_scores (kw : BiasKeywords) (text : String) :
    Scores × List (String × List String) :=
  let mER := find_phrase_matches text (kw.extreme_right.map pyLower)
  let mEL := find_phrase_matches text (kw.extreme_left.map pyLower)
  let mLE := find_phrase_matches text (kw.left_wing_economic.map pyLower)
  let mLS := find_phrase_matches text (kw.left_wing_social.map pyLower)
  let mRE := find_phrase_matches text (kw.right_wing_economic.map pyLower)
  let mRS := find_phrase_matches text (kw.right_wing_social.map pyLower)
  let mN := find_phrase_matches text (kw.neutral_terms.map pyLower)
  let raw : Scores :=
    { left_wing :=
        (if mLE = [] then 0 else (mLE.length : ℚ) * 1.2) +
        (if mLS = [] then 0 else (mLS.length : ℚ) * 1.2)
      right_wing :=
        (if mRE = [] then 0 else (mRE.length : ℚ) * 1.2) +
        (if mRS = [] then 0 else (mRS.length : ℚ) * 1.2)
      extreme_left := if mEL = [] then 0 else (mEL.length : ℚ) * 2
      extreme_right := if mER = [] then 0 else (mER.length : ℚ) * 2
      neutral := if mN = [] then 0 else (mN.length : ℚ) * 0.3 }
  let boosted : Scores :=
    { left_wing := if 0 < raw.left_wing then raw.left_wing + 0.5 else raw.left_wing
      right_wing := if 0 < raw.right_wing then raw.right_wing + 0.5 else raw.right_wing
      extreme_left := if 0 < raw.extreme_left then raw.extreme_left + 0.5 else raw.extreme_left
      extreme_right := if 0 < raw.extreme_right then raw.extreme_right + 0.5 else raw.extreme_right
      neutral := if 0 < raw.neutral then raw.neutral + 0.5 else raw.neutral }
  let total_score :=
    boosted.left_wing + boosted.right_wing + boosted.extreme_left +
      boosted.extreme_right + boosted.neutral
  let final : Scores :=
    if 0 < total_score then
      { left_wing := boosted.left_wing / total_score
        right_wing := boosted.right_wing / total_score
        extreme_left := boosted.extreme_left / total_score
        extreme_right := boosted.extreme_right / total_score
        neutral := boosted.neutral / total_score }
    else boosted
  (final, collectPhrases mER mEL mLE mLS mRE mRS mN)

/-- `determine_overall_bias` from `server.py` lines 112–149: 0.5 dominance
threshold, "mixed extreme" when both extremes are dominant, extreme
preference keyed on positive raw score, neutral suppression, and a final
fall-back to the first maximal category.  Always total (`max` is only
taken over the always-nonempty `scores.items()` in the last step, modelled
with an unreachable `("neutral", 0)` default). -/
def determine_overall_bias (s : Scores) : String × ℚ :=
  let max_score := maxScore s
  if max_score = 0 then ("neutral", 0)
  else
    let dominant_categories :=
      categoryList.filter (fun c => decide (max_score * 0.5 ≤ scoreOf s c))
    let extreme_categories : List String := ["extreme_left", "extreme_right"]
    let step3 : String × ℚ :=
      let non_neutral_scores :=
        (categoryList.filter (fun c =>
          decide (0 < scoreOf s c) && !(c = "neutral" : Bool))).map
          (fun c => (c, scoreOf s c))
      match pyMaxByVal non_neutral_scores with
      | some cm => (cm.1, max_score)
      | none =>
        match pyMaxByVal (categoryList.map (fun c => (c, scoreOf s c))) with
        | some cm => (cm.1, max_score)
        | none => ("neutral", 0)
    let afterExtreme : String × ℚ :=
      if dominant_categories.contains "neutral" then
        let non_neutral :=
          (categoryList.filter (fun c =>
            decide (0 < scoreOf s c) && !(c = "neutral" : Bool) &&
              !(extreme_categories.contains c))).map
            (fun c => (c, scoreOf s c))
        match pyMaxByVal non_neutral with
        | some cm => (cm.1, max_score)
        | none => step3
      else step3
    if dominant_categories.any (fun c => extreme_categories.contains c) then
      if dominant_categories.contains "extreme_left" &&
          dominant_categories.contains "extreme_right" then
        ("mixed extreme", max_score)
      else
        let extreme_scores :=
          (extreme_categories.filter (fun c => decide (0 < scoreOf s c))).map
            (fun c => (c, scoreOf s c))
        match pyMaxByVal extreme_scores with
        | some cm => (cm.1, max_score)
        | none => afterExtreme
    else afterExtreme

end ServerPy

/-! ## The matching policy as the specification describes it (for C1) -/

/-- Remove `suf` from the end of `s` when it is literally a suffix
(the natural reading of the spec's "strip a trailing `s`/`ed`/`ing`"). -/
def stripSuffix (s suf : String) : String :=
  if suf.toList.isSuffixOf s.toList then
    String.mk (s.toList.take (s.toList.length - suf.toList.length))
  else s

/-- The six morphological variants exactly as the claim words them:
strip or append `s`, `ed`, `ing`. -/
def claimVariations (pw : String) : List String :=
  [ stripSuffix pw "s", stripSuffix pw "ed", stripSuffix pw "ing",
    pw ++ "s", pw ++ "ed", pw ++ "ing" ]

/-- A phrase word counts as matched according to claim C1: direct
membership in the token set, substring containment in either direction
between the phrase word and a text token, or a morphological variant in
the token set. -/
def claimWordMatched (textWords : List String) (pw : String) : Bool :=
  textWords.contains pw ||
  textWords.any (fun tw => pyContains tw pw || pyContains pw tw) ||
  (claimVariations pw).any (fun v => textWords.contains v)

/-- A whole phrase (already lowercased) is matched according to claim C1:
verbatim occurrence in the lowercased text, or at least 60% of its words
matched (zero-word phrases treated as not matched, per claim C2). -/
def claimPhraseMatched (textLower : String) (textWords : List String)
    (p : String) : Bool :=
  pyContains textLower p ||
  (let pws := pySplit p
   decide (pws ≠ []) &&
     decide (3 * pws.length ≤ 5 * (pws.filter (claimWordMatched textWords)).length))

/-- `find_phrase_matches` as claim C1 describes it: the order-preserving
filter of the candidates by `claimPhraseMatched`. -/
def claimFindMatches (text : String) (phrases : List String) : List String :=
  let t := pyLower text
  let tws := pySplit t
  (phrases.map pyLower).filter (fun p => claimPhraseMatched t tws p)

/-! ## The matching policy the code actually implements (for C1 amended) -/

/-- A phrase word counts as matched by the code in `main.py`: the three
mechanisms of claim C1 **plus** the substring-set mechanisms of lines
84–87 and 107 — the phrase word may be a length-≥3 substring of a text
token, a length-≥3 substring of a text token may occur inside the phrase
word, and the morphological variants (with Python `rstrip` semantics) are
checked against the substring set as well as the token set. -/
def codeWordMatched (textWords : List String) (pw : String) : Bool :=
  textWords.contains pw ||
  textWords.any (fun tw =>
    pyContains tw pw ||
    pyContains pw tw ||
    (textSubstrings textWords).contains pw ||
    (textSubstrings textWords).any (fun sub =>
      decide (3 ≤ sub.length) && pyContains pw sub)) ||
  (wordVariations pw).any (fun v =>
    textWords.contains v || (textSubstrings textWords).contains v)

/-- A whole phrase (already lowercased) is matched by the code in
`main.py`: verbatim occurrence, or at least 60% of its words matched via
`codeWordMatched`. -/
def codePhraseMatched (textLower : String) (textWords : List String)
    (p : String) : Bool :=
  pyContains textLower p ||
  (let pws := pySplit p
   decide (pws ≠ []) &&
     decide (3 * pws.length ≤ 5 * (pws.filter (codeWordMatched textWords)).length))

/-- The phrases matched for a top-level category, as accumulated by
`calculate_bias_scores` (a wing receives its economic and social matches
concatenated). -/
def matchedFor (m1 m2 m3 m4 m5 m6 m7 : List String) : String → List String
  | "extreme_right" => m1
  | "extreme_left" => m2
  | "left_wing" => m3 ++ m4
  | "right_wing" => m5 ++ m6
  | "neutral" => m7
  | _ => []

/-! ## Theorems -/

/-- The integer guard used in `phraseStep` is exactly the source's
floating-point test `matched_words / len(phrase_words) >= 0.6` (idealised
over ℚ, where it is exact). -/
theorem matchThreshold_iff (m l : Nat) (hl : l ≠ 0) :
    (3 * l ≤ 5 * m) ↔ (0.6 : ℚ) ≤ (m : ℚ) / (l : ℚ) := by
  have hl0 : (0 : ℚ) < (l : ℚ) := by
    exact_mod_cast Nat.pos_of_ne_zero hl
  rw [le_div_iff₀ hl0, show (0.6 : ℚ) = 3 / 5 by norm_num,
    div_mul_eq_mul_div, div_le_iff₀ (by norm_num : (0 : ℚ) < 5)]
  constructor
  · intro h
    have h2 : (3 * l : ℚ) ≤ (5 * m : ℚ) := by exact_mod_cast h
    linarith
  · intro h
    have h2 : (3 * l : ℚ) ≤ (5 * m : ℚ) := by linarith
    exact_mod_cast h2

theorem if_if_or (a b c : Bool) :
    (if a then true else if b then true else c) = (a || b || c) := by
  cases a <;> cases b <;> rfl

theorem wordCheck_eq_codeWordMatched (tws : List String) (pw : String) :
    wordCheck tws pw = codeWordMatched tws pw := by
  unfold wordCheck codeWordMatched
  exact if_if_or _ _ _

theorem foldl_count (p : String → Bool) (l : List String) (n : Nat) :
    l.foldl (fun acc pw => if p pw then acc + 1 else acc) n =
      n + (l.filter p).length := by
  induction l generalizing n with
  | nil => simp
  | cons a l ih =>
    by_cases h : p a
    · simp [h, ih]
      omega
    · simp [h, ih]

theorem phraseStep_eq (t : String) (tws : List String) (p : String)
    (h : pySplit (pyLower p) = [] → pyContains t (pyLower p) = true) :
    phraseStep t tws p =
      Except.ok (if codePhraseMatched t tws (pyLower p) then some (pyLower p)
        else none) := by
  have hw : wordCheck tws = codeWordMatched tws :=
    funext (wordCheck_eq_codeWordMatched tws)
  unfold phraseStep codePhraseMatched
  by_cases hc : pyContains t (pyLower p) = true
  · simp [hc]
  · have hnil : pySplit (pyLower p) ≠ [] := fun hn => hc (h hn)
    rw [hw]
    simp only [hc, Bool.false_eq_true, if_false, Bool.false_or]
    rw [foldl_count]
    simp only [Nat.zero_add]
    rw [if_neg (by simpa [List.length_eq_zero] using hnil)]
    simp [hnil]

theorem matchLoop_filter (t : String) (tws : List String) (ps : List String)
    (h : ∀ p ∈ ps, pySplit (pyLower p) = [] → pyContains t (pyLower p) = true) :
    matchLoop t tws ps =
      Except.ok ((ps.map pyLower).filter (codePhraseMatched t tws)) := by
  induction ps with
  | nil => rfl
  | cons p ps ih =>
    rw [matchLoop, phraseStep_eq t tws p (h p (List.mem_cons_self p ps)),
      ih (fun q hq => h q (List.mem_cons_of_mem p hq))]
    by_cases hm : codePhraseMatched t tws (pyLower p) = true
    · simp [hm]
    · simp [hm]

/-! ## Claims C1 and C2 -/

/-- C1, counterexample.  With text `"abcdef"` and single candidate phrase
`"xbcdy"`, none of the three word-matching mechanisms listed by the claim
applies (the phrase word is not a token, shares no containment in either
direction with the token `"abcdef"`, and none of its six variants is a
token), so the claimed behaviour returns no match — but the code matches
the phrase, because the length-3 substring `"bcd"` of the text token
occurs inside the phrase word (`main.py` line 87), a mechanism the claim
omits. -/
theorem C1_counterexample :
    find_phrase_matches "abcdef" ["xbcdy"] = Except.ok ["xbcdy"] ∧
    claimFindMatches "abcdef" ["xbcdy"] = [] := by
  constructor
  · decide
  · decide

/-- C1 as amended: `find_phrase_matches` returns exactly the (lowercased)
candidates that occur verbatim in the lowercased text or have at least
60% of their words matched by `codeWordMatched` — the claim's three
mechanisms plus the shared-substring mechanisms — preserving candidate
order, provided no candidate triggers the zero-word division error
(cf. C2). -/
theorem C1_matching_characterization (text : String) (phrases : List String)
    (h : ∀ p ∈ phrases,
      pySplit (pyLower p) = [] → pyContains (pyLower text) (pyLower p) = true) :
    find_phrase_matches text phrases =
      Except.ok ((phrases.map pyLower).filter
        (codePhraseMatched (pyLower text) (pySplit (pyLower text)))) := by
  unfold find_phrase_matches
  exact matchLoop_filter (pyLower text) (pySplit (pyLower text)) phrases h

/-- Witness for `C1_matching_characterization` at the spec's own examples:
`"social justice warrior"` fuzzily matches a text containing only
`"social justice"` (2 of 3 words ≥ 60%), while `"radical leftist"`
matches verbatim. -/
theorem C1_matching_characterization_witness :
    (∀ p ∈ ["radical leftist", "social justice warrior"],
      pySplit (pyLower p) = [] →
        pyContains (pyLower "The radical leftist demands social justice") (pyLower p) = true) ∧
    find_phrase_matches "The radical leftist demands social justice"
        ["radical leftist", "social justice warrior"] =
      Except.ok ((["radical leftist", "social justice warrior"].map pyLower).filter
        (codePhraseMatched (pyLower "The radical leftist demands social justice")
          (pySplit (pyLower "The radical leftist demands social justice")))) :=
  ⟨by decide,
   C1_matching_characterization "The radical leftist demands social justice"
     ["radical leftist", "social justice warrior"] (by decide)⟩

/-- C2: the code does **not** guard the division
`matched_words / len(phrase_words)`.  A whitespace-only phrase that does
not occur verbatim raises `ZeroDivisionError` (`main.py` line 113), and an
empty phrase is returned as matched (Python's `"" in text` is always
true), so zero-word phrases are neither "treated as not matched" nor
handled totally. -/
theorem C2_zero_division_bug :
    find_phrase_matches "hello" [" "] = Except.error () ∧
    find_phrase_matches "hello" [""] = Except.ok [""] := by
  constructor
  · decide
  · decide

/-! ## Dictionary lemmas -/

theorem extendEntry_ne_nil (m : List (String × List String)) (k : String)
    (vs : List String) : extendEntry m k vs ≠ [] := by
  cases m with
  | nil => simp [extendEntry]
  | cons a rest =>
    obtain ⟨k0, v0⟩ := a
    unfold extendEntry
    split_ifs <;> simp

theorem lookupD_extendEntry (m : List (String × List String)) (k c : String)
    (vs : List String) :
    lookupD (extendEntry m k vs) c =
      if k = c then lookupD m c ++ vs else lookupD m c := by
  induction m with
  | nil => by_cases h : k = c <;> simp [extendEntry, lookupD, h]
  | cons a rest ih =>
    obtain ⟨k0, v0⟩ := a
    by_cases h1 : k0 = k
    · subst h1
      by_cases h2 : k0 = c <;> simp [extendEntry, lookupD, h2]
    · by_cases h2 : k0 = c
      · subst h2
        have hkc : ¬ k = k0 := fun hk => h1 hk.symm
        simp [extendEntry, lookupD, h1, hkc]
      · simp [extendEntry, lookupD, h1, h2, ih]

theorem mem_keys_extendEntry (m : List (String × List String)) (k c : String)
    (vs : List String) :
    c ∈ (extendEntry m k vs).map Prod.fst ↔
      c ∈ m.map Prod.fst ∨ c = k := by
  induction m with
  | nil => simp [extendEntry, eq_comm]
  | cons a rest ih =>
    obtain ⟨k0, v0⟩ := a
    by_cases h1 : k0 = k <;> simp [extendEntry, h1, ih] <;> tauto

theorem values_extendEntry (m : List (String × List String)) (k : String)
    (vs : List String) (hvs : vs ≠ [])
    (hm : ∀ p ∈ m, p.2 ≠ ([] : List String)) :
    ∀ p ∈ extendEntry m k vs, p.2 ≠ ([] : List String) := by
  induction m with
  | nil =>
    intro p hp
    simp [extendEntry] at hp
    simp [hp, hvs]
  | cons a rest ih =>
    obtain ⟨k0, v0⟩ := a
    intro p hp
    unfold extendEntry at hp
    split_ifs at hp with h1
    · rcases List.mem_cons.mp hp with h | h
      · subst h
        simp [hvs]
      · exact hm p (List.mem_cons_of_mem _ h)
    · rcases List.mem_cons.mp hp with h | h
      · subst h
        exact hm (k0, v0) (List.mem_cons_self _ _)
      · exact ih (fun q hq => hm q (List.mem_cons_of_mem _ hq)) p h

theorem collectPhrases_eq_nil_iff (m1 m2 m3 m4 m5 m6 m7 : List String) :
    collectPhrases m1 m2 m3 m4 m5 m6 m7 = [] ↔
      m1 = [] ∧ m2 = [] ∧ m3 = [] ∧ m4 = [] ∧ m5 = [] ∧ m6 = [] ∧ m7 = [] := by
  unfold collectPhrases
  split_ifs <;> simp_all [extendEntry_ne_nil]

/-! ## Raw-score lemmas -/

theorem condWeight_nonneg (m : List String) (w : ℚ) (hw : 0 ≤ w) :
    0 ≤ (if m = [] then 0 else (m.length : ℚ) * w) := by
  split_ifs
  · exact le_refl 0
  · exact mul_nonneg (Nat.cast_nonneg _) hw

theorem condWeight_eq_zero {m : List String} {w : ℚ} (hw : 0 < w)
    (h : (if m = [] then 0 else (m.length : ℚ) * w) = 0) : m = [] := by
  by_cases hm : m = []
  · exact hm
  · rw [if_neg hm] at h
    rcases mul_eq_zero.mp h with h1 | h2
    · have hlen : m.length = 0 := by exact_mod_cast h1
      exact List.length_eq_zero.mp hlen
    · exact absurd h2 hw.ne'

/-! ## Claims C3 and C4 -/

theorem calculate_ok_elim (kw : BiasKeywords) (text : String) (s : Scores)
    (d : List (String × List String))
    (h : calculate_bias_scores kw text = Except.ok (s, d)) :
    ∃ m1 m2 m3 m4 m5 m6 m7 : List String,
      find_phrase_matches text kw.extreme_right = Except.ok m1 ∧
      find_phrase_matches text kw.extreme_left = Except.ok m2 ∧
      find_phrase_matches text kw.left_wing_economic = Except.ok m3 ∧
      find_phrase_matches text kw.left_wing_social = Except.ok m4 ∧
      find_phrase_matches text kw.right_wing_economic = Except.ok m5 ∧
      find_phrase_matches text kw.right_wing_social = Except.ok m6 ∧
      find_phrase_matches text kw.neutral_terms = Except.ok m7 ∧
      scoreAndCollect m1 m2 m3 m4 m5 m6 m7 = (s, d) := by
  unfold calculate_bias_scores at h
  repeat' split at h
  all_goals first
    | exact ⟨_, _, _, _, _, _, _, by assumption, by assumption, by assumption,
        by assumption, by assumption, by assumption, by assumption,
        Except.ok.inj h⟩
    | exact absurd h (by simp)

theorem rawScores_total_nonneg (m1 m2 m3 m4 m5 m6 m7 : List String) :
    0 ≤ (rawScores m1 m2 m3 m4 m5 m6 m7).left_wing ∧
    0 ≤ (rawScores m1 m2 m3 m4 m5 m6 m7).right_wing ∧
    0 ≤ (rawScores m1 m2 m3 m4 m5 m6 m7).extreme_left ∧
    0 ≤ (rawScores m1 m2 m3 m4 m5 m6 m7).extreme_right ∧
    0 ≤ (rawScores m1 m2 m3 m4 m5 m6 m7).neutral := by
  unfold rawScores
  refine ⟨?_, ?_, ?_, ?_, ?_⟩
  · exact add_nonneg (condWeight_nonneg _ _ (by norm_num))
      (condWeight_nonneg _ _ (by norm_num))
  · exact add_nonneg (condWeight_nonneg _ _ (by norm_num))
      (condWeight_nonneg _ _ (by norm_num))
  · exact condWeight_nonneg _ _ (by norm_num)
  · exact condWeight_nonneg _ _ (by norm_num)
  · exact condWeight_nonneg _ _ (by norm_num)

theorem rawScores_zero_of_total_eq_zero (m1 m2 m3 m4 m5 m6 m7 : List String)
    (h : (rawScores m1 m2 m3 m4 m5 m6 m7).left_wing +
         (rawScores m1 m2 m3 m4 m5 m6 m7).right_wing +
         (rawScores m1 m2 m3 m4 m5 m6 m7).extreme_left +
         (rawScores m1 m2 m3 m4 m5 m6 m7).extreme_right +
         (rawScores m1 m2 m3 m4 m5 m6 m7).neutral = 0) :
    m1 = [] ∧ m2 = [] ∧ m3 = [] ∧ m4 = [] ∧ m5 = [] ∧ m6 = [] ∧ m7 = [] := by
  obtain ⟨h1, h2, h3, h4, h5⟩ := rawScores_total_nonneg m1 m2 m3 m4 m5 m6 m7
  have hlw : (rawScores m1 m2 m3 m4 m5 m6 m7).left_wing = 0 := by linarith
  have hrw : (rawScores m1 m2 m3 m4 m5 m6 m7).right_wing = 0 := by linarith
  have hel : (rawScores m1 m2 m3 m4 m5 m6 m7).extreme_left = 0 := by linarith
  have her : (rawScores m1 m2 m3 m4 m5 m6 m7).extreme_right = 0 := by linarith
  have hn : (rawScores m1 m2 m3 m4 m5 m6 m7).neutral = 0 := by linarith
  unfold rawScores at hlw hrw hel her hn
  simp only at hlw hrw hel her hn
  have hle0 : (if m3 = [] then 0 else (m3.length : ℚ) * 1) = 0 := by
    have := condWeight_nonneg m3 (1 : ℚ) (by norm_num)
    have := condWeight_nonneg m4 (1 : ℚ) (by norm_num)
    linarith
  have hls0 : (if m4 = [] then 0 else (m4.length : ℚ) * 1) = 0 := by
    have := condWeight_nonneg m3 (1 : ℚ) (by norm_num)
    have := condWeight_nonneg m4 (1 : ℚ) (by norm_num)
    linarith
  have hre0 : (if m5 = [] then 0 else (m5.length : ℚ) * 1) = 0 := by
    have := condWeight_nonneg m5 (1 : ℚ) (by norm_num)
    have := condWeight_nonneg m6 (1 : ℚ) (by norm_num)
    linarith
  have hrs0 : (if m6 = [] then 0 else (m6.length : ℚ) * 1) = 0 := by
    have := condWeight_nonneg m5 (1 : ℚ) (by norm_num)
    have := condWeight_nonneg m6 (1 : ℚ) (by norm_num)
    linarith
  exact ⟨condWeight_eq_zero (by norm_num) her,
    condWeight_eq_zero (by norm_num) hel,
    condWeight_eq_zero (by norm_num) hle0,
    condWeight_eq_zero (by norm_num) hls0,
    condWeight_eq_zero (by norm_num) hre0,
    condWeight_eq_zero (by norm_num) hrs0,
    condWeight_eq_zero (by norm_num) hn⟩

/-- C3: every score dictionary returned by `calculate_bias_scores` has
non-negative entries; when at least one phrase matched (equivalently, the
detected-phrases dictionary is non-empty, which happens exactly when the
raw total is positive) the five values sum to exactly 1, and when nothing
matched all five values are 0. -/
theorem C3_normalized_scores (kw : BiasKeywords) (text : String) (s : Scores)
    (d : List (String × List String))
    (h : calculate_bias_scores kw text = Except.ok (s, d)) :
    (0 ≤ s.left_wing ∧ 0 ≤ s.right_wing ∧ 0 ≤ s.extreme_left ∧
      0 ≤ s.extreme_right ∧ 0 ≤ s.neutral) ∧
    (d ≠ [] →
      s.left_wing + s.right_wing + s.extreme_left + s.extreme_right +
        s.neutral = 1) ∧
    (d = [] →
      s.left_wing = 0 ∧ s.right_wing = 0 ∧ s.extreme_left = 0 ∧
        s.extreme_right = 0 ∧ s.neutral = 0) := by
  obtain ⟨m1, m2, m3, m4, m5, m6, m7, -, -, -, -, -, -, -, hsc⟩ :=
    calculate_ok_elim kw text s d h
  obtain ⟨q1, q2, q3, q4, q5⟩ := rawScores_total_nonneg m1 m2 m3 m4 m5 m6 m7
  simp only [scoreAndCollect] at hsc
  by_cases ht : 0 <
      (rawScores m1 m2 m3 m4 m5 m6 m7).left_wing +
      (rawScores m1 m2 m3 m4 m5 m6 m7).right_wing +
      (rawScores m1 m2 m3 m4 m5 m6 m7).extreme_left +
      (rawScores m1 m2 m3 m4 m5 m6 m7).extreme_right +
      (rawScores m1 m2 m3 m4 m5 m6 m7).neutral
  · rw [if_pos ht] at hsc
    injection hsc with hs hd
    refine ⟨⟨?_, ?_, ?_, ?_, ?_⟩, ?_, ?_⟩
    · rw [← hs]; exact div_nonneg q1 ht.le
    · rw [← hs]; exact div_nonneg q2 ht.le
    · rw [← hs]; exact div_nonneg q3 ht.le
    · rw [← hs]; exact div_nonneg q4 ht.le
    · rw [← hs]; exact div_nonneg q5 ht.le
    · intro _
      rw [← hs]
      simp only
      rw [div_add_div_same, div_add_div_same, div_add_div_same,
        div_add_div_same, div_self ht.ne']
    · intro hdnil
      exfalso
      rw [← hd] at hdnil
      obtain ⟨e1, e2, e3, e4, e5, e6, e7⟩ :=
        (collectPhrases_eq_nil_iff m1 m2 m3 m4 m5 m6 m7).mp hdnil
      subst e1; subst e2; subst e3; subst e4; subst e5; subst e6; subst e7
      simp [rawScores] at ht
  · rw [if_neg ht] at hsc
    injection hsc with hs hd
    have htz :
        (rawScores m1 m2 m3 m4 m5 m6 m7).left_wing +
        (rawScores m1 m2 m3 m4 m5 m6 m7).right_wing +
        (rawScores m1 m2 m3 m4 m5 m6 m7).extreme_left +
        (rawScores m1 m2 m3 m4 m5 m6 m7).extreme_right +
        (rawScores m1 m2 m3 m4 m5 m6 m7).neutral = 0 := by
      have hle : (rawScores m1 m2 m3 m4 m5 m6 m7).left_wing +
          (rawScores m1 m2 m3 m4 m5 m6 m7).right_wing +
          (rawScores m1 m2 m3 m4 m5 m6 m7).extreme_left +
          (rawScores m1 m2 m3 m4 m5 m6 m7).extreme_right +
          (rawScores m1 m2 m3 m4 m5 m6 m7).neutral ≤ 0 := le_of_not_lt ht
      linarith
    obtain ⟨e1, e2, e3, e4, e5, e6, e7⟩ :=
      rawScores_zero_of_total_eq_zero m1 m2 m3 m4 m5 m6 m7 htz
    have hdnil : d = [] := by
      rw [← hd]
      exact (collectPhrases_eq_nil_iff m1 m2 m3 m4 m5 m6 m7).mpr
        ⟨e1, e2, e3, e4, e5, e6, e7⟩
    have hzero : s.left_wing = 0 ∧ s.right_wing = 0 ∧ s.extreme_left = 0 ∧
        s.extreme_right = 0 ∧ s.neutral = 0 := by
      rw [← hs]
      subst e1; subst e2; subst e3; subst e4; subst e5; subst e6; subst e7
      simp [rawScores]
    refine ⟨⟨?_, ?_, ?_, ?_, ?_⟩, ?_, fun _ => hzero⟩
    · rw [hzero.1]
    · rw [hzero.2.1]
    · rw [hzero.2.2.1]
    · rw [hzero.2.2.2.1]
    · rw [hzero.2.2.2.2]
    · intro hdne
      exact absurd hdnil hdne

theorem condWeight_eq (m : List String) (w : ℚ) :
    (if m = [] then 0 else (m.length : ℚ) * w) = (m.length : ℚ) * w := by
  split_ifs with h
  · subst h; simp
  · rfl

theorem lookupD_collect_er (m1 m2 m3 m4 m5 m6 m7 : List String) :
    lookupD (collectPhrases m1 m2 m3 m4 m5 m6 m7) "extreme_right" = m1 := by
  unfold collectPhrases
  split_ifs <;> simp_all [extendEntry, lookupD]

theorem lookupD_collect_el (m1 m2 m3 m4 m5 m6 m7 : List String) :
    lookupD (collectPhrases m1 m2 m3 m4 m5 m6 m7) "extreme_left" = m2 := by
  unfold collectPhrases
  split_ifs <;> simp_all [extendEntry, lookupD]

theorem lookupD_collect_lw (m1 m2 m3 m4 m5 m6 m7 : List String) :
    lookupD (collectPhrases m1 m2 m3 m4 m5 m6 m7) "left_wing" = m3 ++ m4 := by
  unfold collectPhrases
  split_ifs <;> simp_all [extendEntry, lookupD]

theorem lookupD_collect_rw (m1 m2 m3 m4 m5 m6 m7 : List String) :
    lookupD (collectPhrases m1 m2 m3 m4 m5 m6 m7) "right_wing" = m5 ++ m6 := by
  unfold collectPhrases
  split_ifs <;> simp_all [extendEntry, lookupD]

theorem lookupD_collect_n (m1 m2 m3 m4 m5 m6 m7 : List String) :
    lookupD (collectPhrases m1 m2 m3 m4 m5 m6 m7) "neutral" = m7 := by
  unfold collectPhrases
  split_ifs <;> simp_all [extendEntry, lookupD]

/-- C4: the raw (pre-normalization) scores of `calculate_bias_scores` are
2.0 × match count for the extreme categories, 1.0 × the combined
economic + social counts for each wing, 0.75 × count for neutral, and the
detected-phrases dictionary maps each top-level category to all of its
matched phrases regardless of sub-list (economic and social matches both
land under the wing's top-level key). -/
theorem C4_raw_weights (m1 m2 m3 m4 m5 m6 m7 : List String) :
    (rawScores m1 m2 m3 m4 m5 m6 m7).extreme_left = 2 * (m2.length : ℚ) ∧
    (rawScores m1 m2 m3 m4 m5 m6 m7).extreme_right = 2 * (m1.length : ℚ) ∧
    (rawScores m1 m2 m3 m4 m5 m6 m7).left_wing =
      1 * ((m3.length : ℚ) + (m4.length : ℚ)) ∧
    (rawScores m1 m2 m3 m4 m5 m6 m7).right_wing =
      1 * ((m5.length : ℚ) + (m6.length : ℚ)) ∧
    (rawScores m1 m2 m3 m4 m5 m6 m7).neutral = 0.75 * (m7.length : ℚ) ∧
    lookupD (collectPhrases m1 m2 m3 m4 m5 m6 m7) "extreme_right" = m1 ∧
    lookupD (collectPhrases m1 m2 m3 m4 m5 m6 m7) "extreme_left" = m2 ∧
    lookupD (collectPhrases m1 m2 m3 m4 m5 m6 m7) "left_wing" = m3 ++ m4 ∧
    lookupD (collectPhrases m1 m2 m3 m4 m5 m6 m7) "right_wing" = m5 ++ m6 ∧
    lookupD (collectPhrases m1 m2 m3 m4 m5 m6 m7) "neutral" = m7 := by
  refine ⟨?_, ?_, ?_, ?_, ?_, lookupD_collect_er m1 m2 m3 m4 m5 m6 m7,
    lookupD_collect_el m1 m2 m3 m4 m5 m6 m7,
    lookupD_collect_lw m1 m2 m3 m4 m5 m6 m7,
    lookupD_collect_rw m1 m2 m3 m4 m5 m6 m7,
    lookupD_collect_n m1 m2 m3 m4 m5 m6 m7⟩
  · show (if m2 = [] then 0 else (m2.length : ℚ) * 2) = 2 * (m2.length : ℚ)
    rw [condWeight_eq]; ring
  · show (if m1 = [] then 0 else (m1.length : ℚ) * 2) = 2 * (m1.length : ℚ)
    rw [condWeight_eq]; ring
  · show (if m3 = [] then 0 else (m3.length : ℚ) * 1) +
        (if m4 = [] then 0 else (m4.length : ℚ) * 1) =
        1 * ((m3.length : ℚ) + (m4.length : ℚ))
    rw [condWeight_eq, condWeight_eq]; ring
  · show (if m5 = [] then 0 else (m5.length : ℚ) * 1) +
        (if m6 = [] then 0 else (m6.length : ℚ) * 1) =
        1 * ((m5.length : ℚ) + (m6.length : ℚ))
    rw [condWeight_eq, condWeight_eq]; ring
  · show (if m7 = [] then 0 else (m7.length : ℚ) * 0.75) =
        0.75 * (m7.length : ℚ)
    rw [condWeight_eq]; ring

/-! ## Claim C10 -/

theorem mem_keys_step (m : List (String × List String)) (k c : String)
    (vs : List String) :
    (c ∈ (if vs = [] then m else extendEntry m k vs).map Prod.fst) ↔
      (c ∈ m.map Prod.fst ∨ (c = k ∧ vs ≠ [])) := by
  split_ifs with h
  · simp [h]
  · rw [mem_keys_extendEntry]
    simp [h]

theorem mem_keys_collect (m1 m2 m3 m4 m5 m6 m7 : List String) (c : String) :
    c ∈ (collectPhrases m1 m2 m3 m4 m5 m6 m7).map Prod.fst ↔
      (c = "extreme_right" ∧ m1 ≠ []) ∨
      (c = "extreme_left" ∧ m2 ≠ []) ∨
      (c = "left_wing" ∧ (m3 ≠ [] ∨ m4 ≠ [])) ∨
      (c = "right_wing" ∧ (m5 ≠ [] ∨ m6 ≠ [])) ∨
      (c = "neutral" ∧ m7 ≠ []) := by
  simp only [collectPhrases]
  rw [mem_keys_step, mem_keys_step, mem_keys_step, mem_keys_step,
    mem_keys_step, mem_keys_step, mem_keys_step]
  simp only [List.map_nil, List.not_mem_nil, false_or]
  tauto

theorem values_step (m : List (String × List String)) (k : String)
    (vs : List String) (hm : ∀ p ∈ m, p.2 ≠ ([] : List String)) :
    ∀ p ∈ (if vs = [] then m else extendEntry m k vs),
      p.2 ≠ ([] : List String) := by
  split_ifs with h
  · exact hm
  · exact values_extendEntry m k vs h hm

theorem values_collect (m1 m2 m3 m4 m5 m6 m7 : List String) :
    ∀ p ∈ collectPhrases m1 m2 m3 m4 m5 m6 m7, p.2 ≠ ([] : List String) := by
  unfold collectPhrases
  exact values_step _ _ _ (values_step _ _ _ (values_step _ _ _
    (values_step _ _ _ (values_step _ _ _ (values_step _ _ _
      (values_step _ _ _ (by simp)))))))

/-- C10: in the detected-phrases dictionary returned by
`calculate_bias_scores`, a top-level category name is a key exactly when
at least one phrase matched for it, and no key is ever mapped to an empty
list. -/
theorem C10_detected_keys (kw : BiasKeywords) (text : String) (s : Scores)
    (d : List (String × List String))
    (h : calculate_bias_scores kw text = Except.ok (s, d)) (c : String)
    (hc : c ∈ categoryList) :
    ∃ m1 m2 m3 m4 m5 m6 m7 : List String,
      find_phrase_matches text kw.extreme_right = Except.ok m1 ∧
      find_phrase_matches text kw.extreme_left = Except.ok m2 ∧
      find_phrase_matches text kw.left_wing_economic = Except.ok m3 ∧
      find_phrase_matches text kw.left_wing_social = Except.ok m4 ∧
      find_phrase_matches text kw.right_wing_economic = Except.ok m5 ∧
      find_phrase_matches text kw.right_wing_social = Except.ok m6 ∧
      find_phrase_matches text kw.neutral_terms = Except.ok m7 ∧
      (c ∈ d.map Prod.fst ↔ matchedFor m1 m2 m3 m4 m5 m6 m7 c ≠ []) ∧
      (∀ p ∈ d, p.2 ≠ ([] : List String)) := by
  obtain ⟨m1, m2, m3, m4, m5, m6, m7, f1, f2, f3, f4, f5, f6, f7, hsc⟩ :=
    calculate_ok_elim kw text s d h
  have hd : d = collectPhrases m1 m2 m3 m4 m5 m6 m7 := by
    have h2 := congrArg Prod.snd hsc
    simp only [scoreAndCollect] at h2
    exact h2.symm
  subst hd
  refine ⟨m1, m2, m3, m4, m5, m6, m7, f1, f2, f3, f4, f5, f6, f7, ?_,
    values_collect m1 m2 m3 m4 m5 m6 m7⟩
  have hc5 : c = "left_wing" ∨ c = "right_wing" ∨ c = "extreme_left" ∨
      c = "extreme_right" ∨ c = "neutral" := by
    simpa [categoryList] using hc
  rw [mem_keys_collect]
  rcases hc5 with rfl | rfl | rfl | rfl | rfl <;>
    simp [matchedFor] <;> tauto

/-! ## Decision-resolver lemmas -/

theorem contains_eq_true_iff (l : List String) (a : String) :
    l.contains a = true ↔ a ∈ l :=
  List.elem_iff

theorem mem_dominantCats (s : Scores) (c : String) :
    c ∈ dominantCats s ↔
      c ∈ categoryList ∧ maxScore s * 0.85 ≤ scoreOf s c := by
  simp [dominantCats, List.mem_filter]

theorem maxScore_choice (s : Scores) :
    maxScore s = s.left_wing ∨ maxScore s = s.right_wing ∨
    maxScore s = s.extreme_left ∨ maxScore s = s.extreme_right ∨
    maxScore s = s.neutral := by
  unfold maxScore
  rcases max_choice (max (max (max s.left_wing s.right_wing) s.extreme_left)
      s.extreme_right) s.neutral with h4 | h4
  · rw [h4]
    rcases max_choice (max (max s.left_wing s.right_wing) s.extreme_left)
        s.extreme_right with h3 | h3
    · rw [h3]
      rcases max_choice (max s.left_wing s.right_wing) s.extreme_left with
        h2 | h2
      · rw [h2]
        rcases max_choice s.left_wing s.right_wing with h1 | h1
        · rw [h1]; tauto
        · rw [h1]; tauto
      · rw [h2]; tauto
    · rw [h3]; tauto
  · rw [h4]; tauto

theorem scoreOf_le_maxScore (s : Scores) (c : String) (hc : c ∈ categoryList) :
    scoreOf s c ≤ maxScore s := by
  have hc5 : c = "left_wing" ∨ c = "right_wing" ∨ c = "extreme_left" ∨
      c = "extreme_right" ∨ c = "neutral" := by
    simpa [categoryList] using hc
  rcases hc5 with rfl | rfl | rfl | rfl | rfl <;>
    simp [scoreOf, maxScore]

theorem extreme_any_false (s : Scores)
    (hEL : ¬ maxScore s * 0.85 ≤ s.extreme_left)
    (hER : ¬ maxScore s * 0.85 ≤ s.extreme_right) :
    (dominantCats s).any
      (fun c => (["extreme_left", "extreme_right"] : List String).contains c)
      = false := by
  rw [List.any_eq_false]
  intro c hcd
  obtain ⟨hcl, hcs⟩ := (mem_dominantCats s c).mp hcd
  have hc5 : c = "left_wing" ∨ c = "right_wing" ∨ c = "extreme_left" ∨
      c = "extreme_right" ∨ c = "neutral" := by simpa [categoryList] using hcl
  rcases hc5 with rfl | rfl | rfl | rfl | rfl
  · decide
  · decide
  · exact absurd (by simpa [scoreOf] using hcs) hEL
  · exact absurd (by simpa [scoreOf] using hcs) hER
  · decide

/-- C6: when no extreme category is dominant, `determine_overall_bias`
returns `("neutral", 0.0)` for an all-zero maximum, `("mixed", max_score)`
when more than one category is dominant, and the unique dominant category
with `max_score` as confidence when exactly one is. -/
theorem C6_no_extreme_resolution (s : Scores)
    (hEL : ¬ maxScore s * 0.85 ≤ s.extreme_left)
    (hER : ¬ maxScore s * 0.85 ≤ s.extreme_right) :
    (maxScore s = 0 → determine_overall_bias s = Except.ok ("neutral", 0)) ∧
    (maxScore s ≠ 0 → 1 < (dominantCats s).length →
      determine_overall_bias s = Except.ok ("mixed", maxScore s)) ∧
    (maxScore s ≠ 0 → ∀ c, dominantCats s = [c] →
      determine_overall_bias s = Except.ok (c, maxScore s)) := by
  have hany := extreme_any_false s hEL hER
  refine ⟨?_, ?_, ?_⟩
  · intro h0
    simp only [determine_overall_bias]
    rw [if_pos h0]
  · intro hne hlen
    simp only [determine_overall_bias]
    rw [if_neg hne]
    simp only [hany, Bool.false_eq_true, if_false]
    rw [if_pos hlen]
  · intro hne c hdc
    simp only [determine_overall_bias]
    rw [if_neg hne]
    simp only [hany, Bool.false_eq_true, if_false]
    have hlen : ¬ 1 < (dominantCats s).length := by rw [hdc]; simp
    rw [if_neg hlen, hdc]

/-- C5, counterexample.  On the all-zero score dictionary the claim's
hypothesis holds (each extreme category scores at least 0.85 × the
maximum, since both sides are 0), yet `determine_overall_bias` returns
`("neutral", 0.0)` from its max-score-0 early exit rather than a dominant
extreme category. -/
theorem C5_counterexample :
    maxScore ⟨0, 0, 0, 0, 0⟩ * 0.85 ≤ (⟨0, 0, 0, 0, 0⟩ : Scores).extreme_left ∧
    determine_overall_bias ⟨0, 0, 0, 0, 0⟩ = Except.ok ("neutral", 0) ∧
    ("neutral" : String) ≠ "extreme_left" ∧
    ("neutral" : String) ≠ "extreme_right" := by
  have h0 : maxScore ⟨0, 0, 0, 0, 0⟩ = 0 := by
    norm_num [maxScore, max_def]
  refine ⟨by norm_num [h0], ?_, by decide, by decide⟩
  simp only [determine_overall_bias]
  rw [if_pos h0]

/-- C5 as amended: for every score dictionary with a **nonzero** maximum
in which at least one extreme category scores at least 0.85 × the
maximum, `determine_overall_bias` returns a dominant extreme category
whose score is maximal among the dominant extreme categories, with that
category's own score (not the overall maximum) as confidence. -/
theorem C5_extreme_precedence (s : Scores)
    (hmax : maxScore s ≠ 0)
    (hdom : maxScore s * 0.85 ≤ s.extreme_left ∨
      maxScore s * 0.85 ≤ s.extreme_right) :
    ∃ c conf, determine_overall_bias s = Except.ok (c, conf) ∧
      (c = "extreme_left" ∨ c = "extreme_right") ∧
      maxScore s * 0.85 ≤ scoreOf s c ∧
      conf = scoreOf s c ∧
      (maxScore s * 0.85 ≤ s.extreme_left → s.extreme_left ≤ scoreOf s c) ∧
      (maxScore s * 0.85 ≤ s.extreme_right → s.extreme_right ≤ scoreOf s c) := by
  have hsel : scoreOf s "extreme_left" = s.extreme_left := by simp [scoreOf]
  have hser : scoreOf s "extreme_right" = s.extreme_right := by simp [scoreOf]
  have mem_el : "extreme_left" ∈ dominantCats s ↔
      maxScore s * 0.85 ≤ s.extreme_left := by
    rw [mem_dominantCats]
    simp [categoryList, hsel]
  have mem_er : "extreme_right" ∈ dominantCats s ↔
      maxScore s * 0.85 ≤ s.extreme_right := by
    rw [mem_dominantCats]
    simp [categoryList, hser]
  simp only [determine_overall_bias]
  rw [if_neg hmax]
  by_cases hel : maxScore s * 0.85 ≤ s.extreme_left
  · have cEL : (dominantCats s).contains "extreme_left" = true :=
      (contains_eq_true_iff _ _).mpr (mem_el.mpr hel)
    have hany : (dominantCats s).any
        (fun c => (["extreme_left", "extreme_right"] : List String).contains c)
        = true :=
      List.any_eq_true.mpr ⟨"extreme_left", mem_el.mpr hel, by decide⟩
    rw [if_pos hany]
    by_cases her : maxScore s * 0.85 ≤ s.extreme_right
    · have cER : (dominantCats s).contains "extreme_right" = true :=
        (contains_eq_true_iff _ _).mpr (mem_er.mpr her)
      simp only [List.filter_cons, cEL, cER, if_true, List.filter_nil,
        List.map_cons, List.map_nil, pyMaxByVal, List.foldl_cons,
        List.foldl_nil]
      by_cases hlt : scoreOf s "extreme_left" < scoreOf s "extreme_right"
      · rw [if_pos hlt]
        refine ⟨"extreme_right", scoreOf s "extreme_right", rfl,
          Or.inr rfl, ?_, rfl, ?_, ?_⟩
        · rw [hser]; exact her
        · intro _
          rw [hser]
          rw [hsel, hser] at hlt
          exact hlt.le
        · intro _
          rw [hser]
      · rw [if_neg hlt]
        refine ⟨"extreme_left", scoreOf s "extreme_left", rfl,
          Or.inl rfl, ?_, rfl, ?_, ?_⟩
        · rw [hsel]; exact hel
        · intro _
          rw [hsel]
        · intro _
          rw [hsel]
          rw [hsel, hser] at hlt
          exact le_of_not_lt hlt
    · have cER : (dominantCats s).contains "extreme_right" = false :=
        Bool.eq_false_iff.mpr
          (fun hc => her (mem_er.mp ((contains_eq_true_iff _ _).mp hc)))
      simp only [List.filter_cons, cEL, cER, if_true, Bool.false_eq_true,
        if_false, List.filter_nil, List.map_cons, List.map_nil, pyMaxByVal,
        List.foldl_nil]
      refine ⟨"extreme_left", scoreOf s "extreme_left", rfl, Or.inl rfl,
        ?_, rfl, ?_, ?_⟩
      · rw [hsel]; exact hel
      · intro _
        rw [hsel]
      · intro h2
        exact absurd h2 her
  · have her : maxScore s * 0.85 ≤ s.extreme_right := hdom.resolve_left hel
    have cEL : (dominantCats s).contains "extreme_left" = false :=
      Bool.eq_false_iff.mpr
        (fun hc => hel (mem_el.mp ((contains_eq_true_iff _ _).mp hc)))
    have cER : (dominantCats s).contains "extreme_right" = true :=
      (contains_eq_true_iff _ _).mpr (mem_er.mpr her)
    have hany : (dominantCats s).any
        (fun c => (["extreme_left", "extreme_right"] : List String).contains c)
        = true :=
      List.any_eq_true.mpr ⟨"extreme_right", mem_er.mpr her, by decide⟩
    rw [if_pos hany]
    simp only [List.filter_cons, cEL, cER, if_true, Bool.false_eq_true,
      if_false, List.filter_nil, List.map_cons, List.map_nil, pyMaxByVal,
      List.foldl_nil]
    refine ⟨"extreme_right", scoreOf s "extreme_right", rfl, Or.inr rfl,
      ?_, rfl, ?_, ?_⟩
    · rw [hser]; exact her
    · intro h2
      exact absurd h2 hel
    · intro _
      rw [hser]

theorem argmax_mem_dominantCats (s : Scores) (hpos : 0 < maxScore s) :
    ∃ c ∈ categoryList, scoreOf s c = maxScore s ∧ c ∈ dominantCats s := by
  have hthr : ∀ c, c ∈ categoryList → scoreOf s c = maxScore s →
      c ∈ dominantCats s := by
    intro c hcl hce
    rw [mem_dominantCats]
    refine ⟨hcl, ?_⟩
    rw [hce]
    nlinarith [hpos]
  rcases maxScore_choice s with h | h | h | h | h
  · exact ⟨"left_wing", by decide, by simp [scoreOf, h.symm],
      hthr _ (by decide) (by simp [scoreOf, h.symm])⟩
  · exact ⟨"right_wing", by decide, by simp [scoreOf, h.symm],
      hthr _ (by decide) (by simp [scoreOf, h.symm])⟩
  · exact ⟨"extreme_left", by decide, by simp [scoreOf, h.symm],
      hthr _ (by decide) (by simp [scoreOf, h.symm])⟩
  · exact ⟨"extreme_right", by decide, by simp [scoreOf, h.symm],
      hthr _ (by decide) (by simp [scoreOf, h.symm])⟩
  · exact ⟨"neutral", by decide, by simp [scoreOf, h.symm],
      hthr _ (by decide) (by simp [scoreOf, h.symm])⟩

/-- C9: whenever the five scores are non-negative and the maximum is
positive, the dominant set is non-empty (the maximum-scoring category
satisfies `score ≥ 0.85 × max`), so the `dominant_categories[0]` indexing
never raises and `determine_overall_bias` returns normally. -/
theorem C9_dominant_nonempty (s : Scores)
    (hnn : 0 ≤ s.left_wing ∧ 0 ≤ s.right_wing ∧ 0 ≤ s.extreme_left ∧
      0 ≤ s.extreme_right ∧ 0 ≤ s.neutral)
    (hpos : 0 < maxScore s) :
    dominantCats s ≠ [] ∧
    ∃ r : String × ℚ, determine_overall_bias s = Except.ok r := by
  obtain ⟨c0, hc0l, hc0e, hc0d⟩ := argmax_mem_dominantCats s hpos
  have hne : dominantCats s ≠ [] := List.ne_nil_of_mem hc0d
  refine ⟨hne, ?_⟩
  simp only [determine_overall_bias]
  rw [if_neg hpos.ne']
  by_cases hany : (dominantCats s).any
      (fun c => (["extreme_left", "extreme_right"] : List String).contains c)
      = true
  · rw [if_pos hany]
    obtain ⟨x, hxd, hxe⟩ := List.any_eq_true.mp hany
    have hx2 : x = "extreme_left" ∨ x = "extreme_right" := by
      have := (contains_eq_true_iff _ _).mp hxe
      simpa using this
    rcases hx2 with rfl | rfl
    · have cEL : (dominantCats s).contains "extreme_left" = true :=
        (contains_eq_true_iff _ _).mpr hxd
      by_cases cER : (dominantCats s).contains "extreme_right" = true
      · simp only [List.filter_cons, cEL, cER, if_true, List.filter_nil,
          List.map_cons, List.map_nil, pyMaxByVal, List.foldl_cons,
          List.foldl_nil]
        by_cases hlt : scoreOf s "extreme_left" < scoreOf s "extreme_right"
        · rw [if_pos hlt]
          exact ⟨_, rfl⟩
        · rw [if_neg hlt]
          exact ⟨_, rfl⟩
      · have cER2 : (dominantCats s).contains "extreme_right" = false :=
          Bool.eq_false_iff.mpr cER
        simp only [List.filter_cons, cEL, cER2, if_true, Bool.false_eq_true,
          if_false, List.filter_nil, List.map_cons, List.map_nil,
          pyMaxByVal, List.foldl_nil]
        exact ⟨_, rfl⟩
    · have cER : (dominantCats s).contains "extreme_right" = true :=
        (contains_eq_true_iff _ _).mpr hxd
      by_cases cEL : (dominantCats s).contains "extreme_left" = true
      · simp only [List.filter_cons, cEL, cER, if_true, List.filter_nil,
          List.map_cons, List.map_nil, pyMaxByVal, List.foldl_cons,
          List.foldl_nil]
        by_cases hlt : scoreOf s "extreme_left" < scoreOf s "extreme_right"
        · rw [if_pos hlt]
          exact ⟨_, rfl⟩
        · rw [if_neg hlt]
          exact ⟨_, rfl⟩
      · have cEL2 : (dominantCats s).contains "extreme_left" = false :=
          Bool.eq_false_iff.mpr cEL
        simp only [List.filter_cons, cEL2, cER, if_true, Bool.false_eq_true,
          if_false, List.filter_nil, List.map_cons, List.map_nil,
          pyMaxByVal, List.foldl_nil]
        exact ⟨_, rfl⟩
  · rw [if_neg hany]
    by_cases hlen : 1 < (dominantCats s).length
    · rw [if_pos hlen]
      exact ⟨_, rfl⟩
    · rw [if_neg hlen]
      obtain ⟨c1, l1, hcons⟩ := List.exists_cons_of_ne_nil hne
      rw [hcons]
      exact ⟨_, rfl⟩

/-! ## Claim C7 -/

theorem pyStrip_eq_empty_of_all_whitespace (t : String)
    (h : t.toList.all Char.isWhitespace = true) : pyStrip t = "" := by
  unfold pyStrip
  have hd : t.toList.dropWhile Char.isWhitespace = [] := by
    rw [List.dropWhile_eq_nil_iff]
    intro x hx
    exact List.all_eq_true.mp h x hx
  rw [hd]
  rfl

/-- C7: the `/analyze` handler rejects empty or whitespace-only text with
HTTP 400 and the message `"Text cannot be empty"`, before any scoring
runs — the result does not depend on the keyword lists at all. -/
theorem C7_empty_text_rejected (kw : BiasKeywords) (text : String)
    (h : text.toList.all Char.isWhitespace = true) :
    analyze_text kw text = Except.error (400, "Text cannot be empty") := by
  unfold analyze_text
  rw [if_pos (pyStrip_eq_empty_of_all_whitespace text h)]

/-- Witness for `C7_empty_text_rejected` on a three-space text and a
non-trivial keyword set. -/
theorem C7_empty_text_rejected_witness :
    ("   " : String).toList.all Char.isWhitespace = true ∧
    analyze_text ⟨["fascist"], [], [], [], [], [], []⟩ "   " =
      Except.error (400, "Text cannot be empty") :=
  ⟨by decide, C7_empty_text_rejected ⟨["fascist"], [], [], [], [], [], []⟩
    "   " (by decide)⟩

theorem calc_kwER :
    calculate_bias_scores ⟨["fascist"], [], [], [], [], [], []⟩
        "the fascist regime" =
      Except.ok (⟨0, 0, 0, 1, 0⟩, [("extreme_right", ["fascist"])]) := by
  have h1 : find_phrase_matches "the fascist regime" ["fascist"] =
      Except.ok ["fascist"] := by decide
  have h0 : find_phrase_matches "the fascist regime" ([] : List String) =
      Except.ok [] := by decide
  unfold calculate_bias_scores
  dsimp only
  rw [h1, h0]
  dsimp only
  simp only [scoreAndCollect, rawScores, collectPhrases, extendEntry]
  norm_num

/-- Witness for `C3_normalized_scores` on a text with one extreme-right
match (raw score 2.0, normalized to a distribution summing to 1). -/
theorem C3_normalized_scores_witness :
    calculate_bias_scores ⟨["fascist"], [], [], [], [], [], []⟩
        "the fascist regime" =
      Except.ok (⟨0, 0, 0, 1, 0⟩, [("extreme_right", ["fascist"])]) ∧
    ((0 ≤ (⟨0, 0, 0, 1, 0⟩ : Scores).left_wing ∧
      0 ≤ (⟨0, 0, 0, 1, 0⟩ : Scores).right_wing ∧
      0 ≤ (⟨0, 0, 0, 1, 0⟩ : Scores).extreme_left ∧
      0 ≤ (⟨0, 0, 0, 1, 0⟩ : Scores).extreme_right ∧
      0 ≤ (⟨0, 0, 0, 1, 0⟩ : Scores).neutral) ∧
    ([("extreme_right", ["fascist"])] ≠
        ([] : List (String × List String)) →
      (⟨0, 0, 0, 1, 0⟩ : Scores).left_wing +
        (⟨0, 0, 0, 1, 0⟩ : Scores).right_wing +
        (⟨0, 0, 0, 1, 0⟩ : Scores).extreme_left +
        (⟨0, 0, 0, 1, 0⟩ : Scores).extreme_right +
        (⟨0, 0, 0, 1, 0⟩ : Scores).neutral = 1) ∧
    ([("extreme_right", ["fascist"])] =
        ([] : List (String × List String)) →
      (⟨0, 0, 0, 1, 0⟩ : Scores).left_wing = 0 ∧
        (⟨0, 0, 0, 1, 0⟩ : Scores).right_wing = 0 ∧
        (⟨0, 0, 0, 1, 0⟩ : Scores).extreme_left = 0 ∧
        (⟨0, 0, 0, 1, 0⟩ : Scores).extreme_right = 0 ∧
        (⟨0, 0, 0, 1, 0⟩ : Scores).neutral = 0)) :=
  ⟨calc_kwER,
   C3_normalized_scores ⟨["fascist"], [], [], [], [], [], []⟩
     "the fascist regime" ⟨0, 0, 0, 1, 0⟩
     [("extreme_right", ["fascist"])] calc_kwER⟩

/-- Witness for `C10_detected_keys` at the category `"extreme_right"` of
the same concrete run. -/
theorem C10_detected_keys_witness :
    calculate_bias_scores ⟨["fascist"], [], [], [], [], [], []⟩
        "the fascist regime" =
      Except.ok (⟨0, 0, 0, 1, 0⟩, [("extreme_right", ["fascist"])]) ∧
    ("extreme_right" : String) ∈ categoryList ∧
    (∃ m1 m2 m3 m4 m5 m6 m7 : List String,
      find_phrase_matches "the fascist regime"
        (⟨["fascist"], [], [], [], [], [], []⟩ : BiasKeywords).extreme_right =
        Except.ok m1 ∧
      find_phrase_matches "the fascist regime"
        (⟨["fascist"], [], [], [], [], [], []⟩ : BiasKeywords).extreme_left =
        Except.ok m2 ∧
      find_phrase_matches "the fascist regime"
        (⟨["fascist"], [], [], [], [], [], []⟩ :
          BiasKeywords).left_wing_economic = Except.ok m3 ∧
      find_phrase_matches "the fascist regime"
        (⟨["fascist"], [], [], [], [], [], []⟩ :
          BiasKeywords).left_wing_social = Except.ok m4 ∧
      find_phrase_matches "the fascist regime"
        (⟨["fascist"], [], [], [], [], [], []⟩ :
          BiasKeywords).right_wing_economic = Except.ok m5 ∧
      find_phrase_matches "the fascist regime"
        (⟨["fascist"], [], [], [], [], [], []⟩ :
          BiasKeywords).right_wing_social = Except.ok m6 ∧
      find_phrase_matches "the fascist regime"
        (⟨["fascist"], [], [], [], [], [], []⟩ : BiasKeywords).neutral_terms =
        Except.ok m7 ∧
      (("extreme_right" : String) ∈
          ([("extreme_right", ["fascist"])] :
            List (String × List String)).map Prod.fst ↔
        matchedFor m1 m2 m3 m4 m5 m6 m7 "extreme_right" ≠ []) ∧
      (∀ p ∈ ([("extreme_right", ["fascist"])] :
          List (String × List String)), p.2 ≠ ([] : List String))) :=
  ⟨calc_kwER, by decide,
   C10_detected_keys ⟨["fascist"], [], [], [], [], [], []⟩
     "the fascist regime" ⟨0, 0, 0, 1, 0⟩ [("extreme_right", ["fascist"])]
     calc_kwER "extreme_right" (by decide)⟩

/-- Witness for `C5_extreme_precedence` at a dictionary where
extreme_right (score 2) dominates extreme_left (score 1). -/
theorem C5_extreme_precedence_witness :
    maxScore ⟨0, 0, 1, 2, 0⟩ ≠ 0 ∧
    (maxScore ⟨0, 0, 1, 2, 0⟩ * 0.85 ≤
        (⟨0, 0, 1, 2, 0⟩ : Scores).extreme_left ∨
      maxScore ⟨0, 0, 1, 2, 0⟩ * 0.85 ≤
        (⟨0, 0, 1, 2, 0⟩ : Scores).extreme_right) ∧
    (∃ c conf, determine_overall_bias ⟨0, 0, 1, 2, 0⟩ = Except.ok (c, conf) ∧
      (c = "extreme_left" ∨ c = "extreme_right") ∧
      maxScore ⟨0, 0, 1, 2, 0⟩ * 0.85 ≤ scoreOf ⟨0, 0, 1, 2, 0⟩ c ∧
      conf = scoreOf ⟨0, 0, 1, 2, 0⟩ c ∧
      (maxScore ⟨0, 0, 1, 2, 0⟩ * 0.85 ≤
          (⟨0, 0, 1, 2, 0⟩ : Scores).extreme_left →
        (⟨0, 0, 1, 2, 0⟩ : Scores).extreme_left ≤
          scoreOf ⟨0, 0, 1, 2, 0⟩ c) ∧
      (maxScore ⟨0, 0, 1, 2, 0⟩ * 0.85 ≤
          (⟨0, 0, 1, 2, 0⟩ : Scores).extreme_right →
        (⟨0, 0, 1, 2, 0⟩ : Scores).extreme_right ≤
          scoreOf ⟨0, 0, 1, 2, 0⟩ c)) := by
  have hmax : maxScore ⟨0, 0, 1, 2, 0⟩ ≠ 0 := by
    norm_num [maxScore, max_def]
  have hdom : maxScore ⟨0, 0, 1, 2, 0⟩ * 0.85 ≤
        (⟨0, 0, 1, 2, 0⟩ : Scores).extreme_left ∨
      maxScore ⟨0, 0, 1, 2, 0⟩ * 0.85 ≤
        (⟨0, 0, 1, 2, 0⟩ : Scores).extreme_right := by
    right
    norm_num [maxScore, max_def]
  exact ⟨hmax, hdom, C5_extreme_precedence ⟨0, 0, 1, 2, 0⟩ hmax hdom⟩

/-- Witness for `C6_no_extreme_resolution`: equal left/right wing scores
with no extreme signal resolve to `("mixed", max_score)`. -/
theorem C6_no_extreme_resolution_witness :
    (¬ maxScore ⟨1, 1, 0, 0, 0⟩ * 0.85 ≤
      (⟨1, 1, 0, 0, 0⟩ : Scores).extreme_left) ∧
    (¬ maxScore ⟨1, 1, 0, 0, 0⟩ * 0.85 ≤
      (⟨1, 1, 0, 0, 0⟩ : Scores).extreme_right) ∧
    maxScore ⟨1, 1, 0, 0, 0⟩ ≠ 0 ∧
    1 < (dominantCats ⟨1, 1, 0, 0, 0⟩).length ∧
    determine_overall_bias ⟨1, 1, 0, 0, 0⟩ =
      Except.ok ("mixed", maxScore ⟨1, 1, 0, 0, 0⟩) := by
  have hEL : ¬ maxScore ⟨1, 1, 0, 0, 0⟩ * 0.85 ≤
      (⟨1, 1, 0, 0, 0⟩ : Scores).extreme_left := by
    norm_num [maxScore, max_def]
  have hER : ¬ maxScore ⟨1, 1, 0, 0, 0⟩ * 0.85 ≤
      (⟨1, 1, 0, 0, 0⟩ : Scores).extreme_right := by
    norm_num [maxScore, max_def]
  have hne : maxScore ⟨1, 1, 0, 0, 0⟩ ≠ 0 := by
    norm_num [maxScore, max_def]
  have hm : maxScore ⟨1, 1, 0, 0, 0⟩ = 1 := by
    norm_num [maxScore, max_def]
  have s1 : scoreOf ⟨1, 1, 0, 0, 0⟩ "left_wing" = 1 := by simp [scoreOf]
  have s2 : scoreOf ⟨1, 1, 0, 0, 0⟩ "right_wing" = 1 := by simp [scoreOf]
  have s3 : scoreOf ⟨1, 1, 0, 0, 0⟩ "extreme_left" = 0 := by simp [scoreOf]
  have s4 : scoreOf ⟨1, 1, 0, 0, 0⟩ "extreme_right" = 0 := by simp [scoreOf]
  have s5 : scoreOf ⟨1, 1, 0, 0, 0⟩ "neutral" = 0 := by simp [scoreOf]
  have hd : dominantCats ⟨1, 1, 0, 0, 0⟩ = ["left_wing", "right_wing"] := by
    simp only [dominantCats, categoryList, List.filter_cons, List.filter_nil,
      hm, s1, s2, s3, s4, s5]
    norm_num
  have hlen : 1 < (dominantCats ⟨1, 1, 0, 0, 0⟩).length := by
    rw [hd]
    norm_num
  exact ⟨hEL, hER, hne, hlen,
    (C6_no_extreme_resolution ⟨1, 1, 0, 0, 0⟩ hEL hER).2.1 hne hlen⟩

/-- Witness for `C9_dominant_nonempty` at a dictionary with a single
positive score. -/
theorem C9_dominant_nonempty_witness :
    (0 ≤ (⟨1, 0, 0, 0, 0⟩ : Scores).left_wing ∧
      0 ≤ (⟨1, 0, 0, 0, 0⟩ : Scores).right_wing ∧
      0 ≤ (⟨1, 0, 0, 0, 0⟩ : Scores).extreme_left ∧
      0 ≤ (⟨1, 0, 0, 0, 0⟩ : Scores).extreme_right ∧
      0 ≤ (⟨1, 0, 0, 0, 0⟩ : Scores).neutral) ∧
    0 < maxScore ⟨1, 0, 0, 0, 0⟩ ∧
    (dominantCats ⟨1, 0, 0, 0, 0⟩ ≠ [] ∧
      ∃ r : String × ℚ,
        determine_overall_bias ⟨1, 0, 0, 0, 0⟩ = Except.ok r) := by
  have hnn : 0 ≤ (⟨1, 0, 0, 0, 0⟩ : Scores).left_wing ∧
      0 ≤ (⟨1, 0, 0, 0, 0⟩ : Scores).right_wing ∧
      0 ≤ (⟨1, 0, 0, 0, 0⟩ : Scores).extreme_left ∧
      0 ≤ (⟨1, 0, 0, 0, 0⟩ : Scores).extreme_right ∧
      0 ≤ (⟨1, 0, 0, 0, 0⟩ : Scores).neutral := by
    norm_num
  have hpos : 0 < maxScore ⟨1, 0, 0, 0, 0⟩ := by
    norm_num [maxScore, max_def]
  exact ⟨hnn, hpos, C9_dominant_nonempty ⟨1, 0, 0, 0, 0⟩ hnn hpos⟩

/-! ## Claim C8: the two servers implement different policies -/

theorem main_calc_taxdata :
    calculate_bias_scores ⟨[], [], ["tax"], [], [], [], ["data"]⟩ "tax data" =
      Except.ok (⟨4/7, 0, 0, 0, 3/7⟩,
        [("left_wing", ["tax"]), ("neutral", ["data"])]) := by
  have h1 : find_phrase_matches "tax data" ["tax"] = Except.ok ["tax"] := by
    decide
  have h2 : find_phrase_matches "tax data" ["data"] = Except.ok ["data"] := by
    decide
  have h0 : find_phrase_matches "tax data" ([] : List String) =
      Except.ok [] := by decide
  unfold calculate_bias_scores
  dsimp only
  rw [h1, h2, h0]
  dsimp only
  simp only [scoreAndCollect, rawScores, collectPhrases, extendEntry]
  norm_num
  decide

theorem main_resolve_taxdata :
    determine_overall_bias ⟨4/7, 0, 0, 0, 3/7⟩ =
      Except.ok ("left_wing", 4/7) := by
  have hm : maxScore ⟨4/7, 0, 0, 0, 3/7⟩ = 4/7 := by
    norm_num [maxScore, max_def]
  have s1 : scoreOf ⟨4/7, 0, 0, 0, 3/7⟩ "left_wing" = 4/7 := by simp [scoreOf]
  have s2 : scoreOf ⟨4/7, 0, 0, 0, 3/7⟩ "right_wing" = 0 := by simp [scoreOf]
  have s3 : scoreOf ⟨4/7, 0, 0, 0, 3/7⟩ "extreme_left" = 0 := by
    simp [scoreOf]
  have s4 : scoreOf ⟨4/7, 0, 0, 0, 3/7⟩ "extreme_right" = 0 := by
    simp [scoreOf]
  have s5 : scoreOf ⟨4/7, 0, 0, 0, 3/7⟩ "neutral" = 3/7 := by simp [scoreOf]
  have hd : dominantCats ⟨4/7, 0, 0, 0, 3/7⟩ = ["left_wing"] := by
    simp only [dominantCats, categoryList, List.filter_cons, List.filter_nil,
      hm, s1, s2, s3, s4, s5]
    norm_num
  simp only [determine_overall_bias, hm, hd]
  norm_num [pyMaxByVal]
  rintro (h | h) <;> exact absurd h (by decide)

theorem server_calc_taxdata :
    ServerPy.calculate_bias_scores ⟨[], [], ["tax"], [], [], [], ["data"]⟩
        "tax data" =
      (⟨17/25, 0, 0, 0, 8/25⟩,
        [("left_wing", ["tax"]), ("neutral", ["data"])]) := by
  have h1 : ServerPy.find_phrase_matches "tax data"
      (List.map pyLower ["tax"]) = ["tax"] := by decide
  have h2 : ServerPy.find_phrase_matches "tax data"
      (List.map pyLower ["data"]) = ["data"] := by decide
  have h0 : ServerPy.find_phrase_matches "tax data"
      (List.map pyLower ([] : List String)) = [] := by decide
  unfold ServerPy.calculate_bias_scores
  dsimp only
  rw [h1, h2, h0]
  simp only [collectPhrases, extendEntry]
  norm_num
  decide

theorem server_resolve_taxdata :
    ServerPy.determine_overall_bias ⟨17/25, 0, 0, 0, 8/25⟩ =
      ("left_wing", 17/25) := by
  have hm : maxScore ⟨17/25, 0, 0, 0, 8/25⟩ = 17/25 := by
    norm_num [maxScore, max_def]
  have s1 : scoreOf ⟨17/25, 0, 0, 0, 8/25⟩ "left_wing" = 17/25 := by
    simp [scoreOf]
  have s2 : scoreOf ⟨17/25, 0, 0, 0, 8/25⟩ "right_wing" = 0 := by
    simp [scoreOf]
  have s3 : scoreOf ⟨17/25, 0, 0, 0, 8/25⟩ "extreme_left" = 0 := by
    simp [scoreOf]
  have s4 : scoreOf ⟨17/25, 0, 0, 0, 8/25⟩ "extreme_right" = 0 := by
    simp [scoreOf]
  have s5 : scoreOf ⟨17/25, 0, 0, 0, 8/25⟩ "neutral" = 8/25 := by
    simp [scoreOf]
  simp only [ServerPy.determine_overall_bias, hm, s1, s2, s3, s4, s5,
    categoryList, List.filter_cons, List.filter_nil, pyMaxByVal]
  simp [scoreOf]
  norm_num
  decide

/-- C8: the scoring/resolution pipeline of `server.py` is not
extensionally equal to the one of `main.py`.  With a keyword set holding
the single left-wing economic phrase `"tax"` and the single neutral term
`"data"`, the text `"tax data"` is normalized by `main.py` to
left_wing = 4/7 (weights 1.0 / 0.75, no baseline) but by `server.py` to
left_wing = 17/25 (weights 1.2 / 0.3 plus the +0.5 baseline), so the two
resolvers return the same label with different confidences
(4/7 ≠ 17/25). -/
theorem C8_policies_differ :
    calculate_bias_scores ⟨[], [], ["tax"], [], [], [], ["data"]⟩ "tax data" =
      Except.ok (⟨4/7, 0, 0, 0, 3/7⟩,
        [("left_wing", ["tax"]), ("neutral", ["data"])]) ∧
    determine_overall_bias ⟨4/7, 0, 0, 0, 3/7⟩ =
      Except.ok ("left_wing", 4/7) ∧
    ServerPy.calculate_bias_scores ⟨[], [], ["tax"], [], [], [], ["data"]⟩
        "tax data" =
      (⟨17/25, 0, 0, 0, 8/25⟩,
        [("left_wing", ["tax"]), ("neutral", ["data"])]) ∧
    ServerPy.determine_overall_bias ⟨17/25, 0, 0, 0, 8/25⟩ =
      ("left_wing", 17/25) ∧
    ((4 : ℚ)/7 ≠ 17/25) :=
  ⟨main_calc_taxdata, main_resolve_taxdata, server_calc_taxdata,
    server_resolve_taxdata, by norm_num⟩
